import Mathlib

/-!
Verification of the CIUSuite2 grid-processing pipeline (Raw_Processing.py,
Original_CIU.py, CIU2_Main.py) against its natural-language specification.

Grids ("CIU fingerprints") are embedded as `List (List ℚ)` in row-major
order (rows = drift-time bins, columns = collision-voltage bins); axes are
lists of rationals.  Floating-point numbers are modelled by exact rationals;
the one place where float semantics is observable (a 0/0 division producing
NaN in `rmsd_difference`) is modelled explicitly with `Option`.
-/

/-- A grid: list of rows, each row a list of rational intensities. -/
abbrev Mat : Type := List (List ℚ)

/-- Shape predicate: `g` has exactly `m` rows and every row has length `n`. -/
def IsRect (g : Mat) (m n : ℕ) : Prop :=
  g.length = m ∧ ∀ r ∈ g, r.length = n

instance (g : Mat) (m n : ℕ) : Decidable (IsRect g m n) := by
  unfold IsRect; infer_instance

/-- Maximum of a list of rationals, as computed by `np.max`/`np.amax`
(reduction by binary `max`; the empty case never arises in the source and
is given the junk value 0). -/
def listMax : List ℚ → ℚ
  | [] => 0
  | [x] => x
  | x :: y :: t => max x (listMax (y :: t))

/-- Minimum of a list of rationals (`np.min`). -/
def listMin : List ℚ → ℚ
  | [] => 0
  | [x] => x
  | x :: y :: t => min x (listMin (y :: t))

/-- Row-major flattening of a grid (numpy reduces over all cells). -/
def flatM (g : Mat) : List ℚ := g.foldr (· ++ ·) []

/-- Global maximum of a grid, `np.max(ciu_data)`. -/
def gridMax (g : Mat) : ℚ := listMax (flatM g)

/-- Global minimum of a grid, `np.min(ciu_data)`. -/
def gridMin (g : Mat) : ℚ := listMin (flatM g)

/-- Python 3 `round` to an integer: round-half-to-even (banker's rounding),
as applied by `int(round(x))` in `get_contour_levels`. -/
def pyRound (q : ℚ) : ℤ :=
  if q - ⌊q⌋ < 1/2 then ⌊q⌋
  else if 1/2 < q - ⌊q⌋ then ⌊q⌋ + 1
  else if ⌊q⌋ % 2 = 0 then ⌊q⌋ else ⌊q⌋ + 1

/-- `np.linspace start stop n`: `n` evenly spaced points from `start` to
`stop` inclusive (`[start]` for `n = 1`, `[]` for `n = 0`). -/
def linspace (start stop : ℚ) (n : ℕ) : List ℚ :=
  (List.range n).map (fun i : ℕ => start + (i : ℚ) * (stop - start) / ((n : ℚ) - 1))

/-- `np.arange start stop step` for the positive-step case used by the
source: the values `start + k*step` for `k = 0, 1, …` while `< stop`. -/
def arange (start stop step : ℚ) : List ℚ :=
  if step ≤ 0 then []
  else (List.range (⌈(stop - start) / step⌉).toNat).map (fun k : ℕ => start + (k : ℚ) * step)

/-- The candidate contour steps of `get_contour_levels`
(`possible_steps = np.asarray([0.001, 0.01, 0.1, 1, 10, 100])`). -/
def possible_steps : List ℚ := [1/1000, 1/100, 1/10, 1, 10, 100]

/-- `possible_steps[(np.abs(possible_steps - step)).argmin()]`: the candidate
step closest to `s` in absolute difference, first on ties. -/
def snapStep (s : ℚ) : ℚ :=
  [(1 : ℚ)/100, 1/10, 1, 10, 100].foldl
    (fun best c => if |c - s| < |best - s| then c else best) (1/1000)

/-- Translation of `Original_CIU.get_contour_levels` (Original_CIU.py
lines 87–105): scale the grid range to an integer percent domain padded by
±1, snap the raw step to the nearest candidate, generate
`arange(merge_cutoff, max_val, step)`, prepend `min_val`, and rescale by
1/100. -/
def get_contour_levels (ciu_data : Mat) (merge_cutoff : ℚ) (num_contours : ℕ) : List ℚ :=
  let max_val : ℤ := pyRound (gridMax ciu_data * 100) + 1
  let min_val : ℤ := pyRound (gridMin ciu_data * 100) - 1
  let step : ℚ := snapStep (((max_val : ℚ) - (min_val : ℚ)) / (num_contours : ℚ))
  let levels : List ℚ := arange (merge_cutoff) ((max_val : ℚ)) step
  ((min_val : ℚ) :: levels).map (fun x => x / 100)

/-- Strict ascent of a list of levels: each element strictly greater than
the previous one. -/
def strictAscending (l : List ℚ) : Prop := l.Chain' (· < ·)

instance (l : List ℚ) : Decidable (strictAscending l) := by
  unfold strictAscending; infer_instance

/-- Map over a list with the element index, starting at index `i`. -/
def idxMapFrom (f : ℕ → ℚ → ℚ) : ℕ → List ℚ → List ℚ
  | _, [] => []
  | i, x :: xs => f i x :: idxMapFrom f (i + 1) xs

/-- Map over a list with the element index (used to express numpy's
columnwise broadcasting on row-major lists). -/
def idxMap (f : ℕ → ℚ → ℚ) (l : List ℚ) : List ℚ := idxMapFrom f 0 l

/-- Number of columns of a grid (length of its first row; numpy arrays are
rectangular, so any row would do). -/
def colCount (g : Mat) : ℕ := (g.headD []).length

/-- Column `j` of a grid, read with numpy indexing (`grid[:, j]`). -/
def columnAt (g : Mat) (j : ℕ) : List ℚ := g.map (fun r => r.getD j 0)

/-- Maximum of column `j` of a grid. -/
def colMaxAt (g : Mat) (j : ℕ) : ℚ := listMax (columnAt g j)

/-- `np.amax(raw_data_matrix, axis=0)`: the vector of per-column maxima. -/
def colMaxes (g : Mat) : List ℚ := (List.range (colCount g)).map (fun j => colMaxAt g j)

/-- Translation of `Raw_Processing.normalize_by_col` (Raw_Processing.py
lines 34–54): divide every element by its column's maximum; when some
column maximum is zero, additionally overwrite every entry of those
columns with 0 (the source replaces the NaN/Inf cells the division
produced; over ℚ the division-by-zero cells are junk and are overwritten
the same way). -/
def normalize_by_col (raw_data_matrix : Mat) : Mat :=
  let maxint := colMaxes raw_data_matrix
  let norm := raw_data_matrix.map (fun r => idxMap (fun j x => x / maxint.getD j 0) r)
  if (0 : ℚ) ∈ maxint then
    norm.map (fun r => idxMap (fun j x => if maxint.getD j 0 = 0 then 0 else x) r)
  else
    norm

/-- `np.swapaxes(m, 0, 1)` on a rectangular row-major grid: row `j` of the
result is column `j` of the input. -/
def transposeM (g : Mat) : Mat :=
  (List.range (colCount g)).map (fun j => g.map (fun r => r.getD j 0))

/-- Translation of `Raw_Processing.sav_gol_smooth` (Raw_Processing.py lines
57–80).  The Savitzky–Golay filter itself is `scipy.signal.savgol_filter`,
an external library routine, so it is a parameter `f` of the embedding
(its documented contract — output length equals input length — is assumed
as a hypothesis where needed).  The source makes the window odd by adding
one to an even window, swaps axes, filters each column, and swaps back. -/
def sav_gol_smooth (f : ℕ → List ℚ → List ℚ) (ciu_data_matrix : Mat) (smooth_window : ℕ) : Mat :=
  let w := if smooth_window % 2 = 0 then smooth_window + 1 else smooth_window
  transposeM ((transposeM ciu_data_matrix).map (fun col => f w col))

/-- The smoothing loop of `CIU2_Main.process_raw_obj` (lines 158–162):
apply `sav_gol_smooth` `k` times. -/
def smooth_iter (f : ℕ → List ℚ → List ℚ) (w : ℕ) : ℕ → Mat → Mat
  | 0, d => d
  | k + 1, d => smooth_iter f w k (sav_gol_smooth f d w)

/-- Helper for `find_nearest`: fold of `np.argmin` keeping the first index
whose distance to `v` is strictly smaller than the best so far. -/
def argminAux (v : ℚ) : List ℚ → ℕ → ℕ → ℚ → ℕ
  | [], _, bi, _ => bi
  | x :: xs, i, bi, bd =>
    if |x - v| < bd then argminAux v xs (i + 1) i |x - v|
    else argminAux v xs (i + 1) bi bd

/-- Translation of `Raw_Processing.find_nearest` (lines 83–92):
`(np.abs(array - value)).argmin()`, the first index minimising the
absolute difference. -/
def find_nearest (array : List ℚ) (value : ℚ) : ℕ :=
  match array with
  | [] => 0
  | x :: xs => argminAux value xs 1 0 |x - value|

/-- Python slice `l[lo : hi+1]` (numpy slicing clamps out-of-range ends). -/
def pySlice {α : Type} (l : List α) (lo hi : ℕ) : List α :=
  (l.drop lo).take (hi + 1 - lo)

/-- Translation of `Raw_Processing.crop` (lines 95–138).  The axes of the
analysis object are passed as `dt_axis`/`cv_axis` (`analysis_obj.axes[0]`
and `[1]`); the result is the new `(ciu_data, (dt_axis, cv_axis))`.
Note the source resolves `crop_vals[0]`/`crop_vals[1]` against the DT
axis and `crop_vals[2]`/`crop_vals[3]` against the CV axis. -/
def crop (ciu_data : Mat) (dt_axis cv_axis : List ℚ) (crop_vals : List ℚ) :
    Mat × (List ℚ × List ℚ) :=
  let dt_low := find_nearest dt_axis (crop_vals.getD 0 0)
  let dt_high := find_nearest dt_axis (crop_vals.getD 1 0)
  let cv_low := find_nearest cv_axis (crop_vals.getD 2 0)
  let cv_high := find_nearest cv_axis (crop_vals.getD 3 0)
  let m1 := if dt_high = dt_low then ciu_data else pySlice ciu_data dt_low dt_high
  let dt' := if dt_high = dt_low then dt_axis else pySlice dt_axis dt_low dt_high
  let m2 := transposeM m1
  let m3 := if cv_low = cv_high then m2 else pySlice m2 cv_low cv_high
  let cv' := if cv_low = cv_high then cv_axis else pySlice cv_axis cv_low cv_high
  (transposeM m3, (dt', cv'))

/-- Piecewise-linear interpolation through the points `pts` (x strictly
increasing), evaluated at `x`: the behaviour of `scipy.interpolate.interp1d`
with its default linear kind on in-range queries. -/
def interpPts : List (ℚ × ℚ) → ℚ → ℚ
  | [], _ => 0
  | [p], _ => p.2
  | p :: q :: rest, x =>
    if x ≤ q.1 then p.2 + (q.2 - p.2) * (x - p.1) / (q.1 - p.1)
    else interpPts (q :: rest) x

/-- 1D linear interpolation of the samples `ys` at abscissae `xs`,
evaluated at `x`. -/
def linInterp (xs ys : List ℚ) (x : ℚ) : ℚ := interpPts (xs.zip ys) x

/-- Translation of `Raw_Processing.interpolate_cv` (lines 141–163): build a
new axis of `num_bins` evenly spaced points from `axes[0][0]` to
`axes[0][len-1]`, interpolate every row of `norm_data` from `axes[0]` onto
it, and return the data with `newaxes = [new_cv_axis, axes[1]]`. -/
def interpolate_cv (norm_data : Mat) (axes : List ℚ × List ℚ) (num_bins : ℕ) :
    Mat × (List ℚ × List ℚ) :=
  let xaxis := axes.1
  let start_cv := xaxis.getD 0 0
  let end_cv := xaxis.getD (xaxis.length - 1) 0
  let new_cv_axis := linspace start_cv end_cv num_bins
  let newaxes := (new_cv_axis, axes.2)
  let interpolated_data := norm_data.map (fun ycolumn => new_cv_axis.map (linInterp xaxis ycolumn))
  (interpolated_data, newaxes)

/-- The masked assignment `data[data < 0.1] = 0` applied to one entry. -/
def pyThresh (x : ℚ) : ℚ := if x < 1/10 then 0 else x

/-- `data[data < 0.1] = 0` applied to a whole grid. -/
def threshold01 (g : Mat) : Mat := g.map (fun r => r.map pyThresh)

/-- `np.count_nonzero`: number of nonzero cells of a grid. -/
def countNonzero (g : Mat) : ℕ := (flatM g).countP (fun x => decide (x ≠ 0))

/-- Elementwise difference of two same-shaped grids (`data_1 - data_2`). -/
def matSub (a b : Mat) : Mat := List.zipWith (fun r s => List.zipWith (fun x y => x - y) r s) a b

/-- `np.sum(dif ** 2)`: sum of squares of all cells. -/
def sumSq (g : Mat) : ℚ := (flatM g).foldr (fun x acc => x * x + acc) 0

/-- Translation of `Original_CIU.rmsd_difference` (Original_CIU.py lines
108–121): threshold both grids at 0.1, count the nonzero cells of each
thresholded grid, subtract, and return the difference together with
`sqrt(sum(dif**2) / (n1 + n2)) * 100`.  When `n1 + n2 = 0` the source's
float division `0.0 / 0` yields NaN (and so does the returned RMSD); the
NaN outcome is modelled as `none`. -/
noncomputable def rmsd_difference (data_1 data_2 : Mat) : Mat × Option ℝ :=
  let d1 := threshold01 data_1
  let num_entries_1 := countNonzero d1
  let d2 := threshold01 data_2
  let num_entries_2 := countNonzero d2
  let dif := matSub d1 d2
  let rmsd : Option ℝ :=
    if num_entries_1 + num_entries_2 = 0 then none
    else some (Real.sqrt ((sumSq dif : ℝ) / ((num_entries_1 : ℝ) + (num_entries_2 : ℝ))) * 100)
  (dif, rmsd)

/-- Cell `(i, j)` of a grid, with numpy-style in-range reads. -/
def getEntry (g : Mat) (i j : ℕ) : ℚ := (g.getD i []).getD j 0

/-- Translation of `Original_CIU.interpolate_axes` (lines 301–315):
`np.linspace` from the minimum over both axes to the maximum over both
axes with `num_bins` points. -/
def interpolate_axes (axis1 axis2 : List ℚ) (num_bins : ℕ) : List ℚ :=
  let min_val := min (listMin axis1) (listMin axis2)
  let max_val := max (listMax axis1) (listMax axis2)
  linspace min_val max_val num_bins

/-- Evaluation of `scipy.interpolate.interp2d(xs, ys, z)` (linear kind) at
the query grid `xNew × yNew`: standard bivariate/bilinear interpolation,
realised by interpolating each data row along x and the resulting column
along y.  Result rows correspond to `yNew`, columns to `xNew`, matching
`interp_fn(cv_axis, dt_axis)` in the source. -/
def interp2d_eval (xs ys : List ℚ) (z : Mat) (xNew yNew : List ℚ) : Mat :=
  yNew.map (fun yv => xNew.map (fun xv => linInterp ys (z.map (fun row => linInterp xs row xv)) yv))

/-- Result of the data part of `Original_CIU.compare_basic_raw`:
the two arrays handed to `rmsd_difference` (`norm_data_1/2`), the axes
used for the comparison, and the state of each caller's
`analysis_obj.ciu_data` after the call returns.  In the source,
`norm_data_i` is a fresh interpolated array when the axes were
reconciled, but the very `ciu_data` array of the caller otherwise — and
`rmsd_difference` mutates its arguments in place with
`data[data < 0.1] = 0`, so in the latter case the caller's grid ends up
thresholded. -/
structure CompareResult where
  normData1 : Mat
  normData2 : Mat
  resAxes : List ℚ × List ℚ
  finalData1 : Mat
  finalData2 : Mat
  deriving DecidableEq

/-- Translation of the comparison core of `Original_CIU.compare_basic_raw`
(lines 332–362; the plotting and CSV output that follow are external
rendering/persistence collaborators and are not modelled).  Axes are pairs
`(dt_axis, cv_axis)`.  Interpolation triggers exactly when either axis
LENGTH differs; the reconciled axes span the min/max over both originals
with bin count the larger of the two lengths. -/
def compare_basic_raw (g1 : Mat) (axes1 : List ℚ × List ℚ) (g2 : Mat) (axes2 : List ℚ × List ℚ) :
    CompareResult :=
  if ¬ axes1.1.length = axes2.1.length ∨ ¬ axes1.2.length = axes2.2.length then
    let num_bins_dt := max axes1.1.length axes2.1.length
    let dt_axis := interpolate_axes axes1.1 axes2.1 num_bins_dt
    let num_bins_cv := max axes1.2.length axes2.2.length
    let cv_axis := interpolate_axes axes1.2 axes2.2 num_bins_cv
    let norm_data_1 := interp2d_eval axes1.2 axes1.1 g1 cv_axis dt_axis
    let norm_data_2 := interp2d_eval axes2.2 axes2.1 g2 cv_axis dt_axis
    { normData1 := norm_data_1, normData2 := norm_data_2,
      resAxes := (dt_axis, cv_axis), finalData1 := g1, finalData2 := g2 }
  else
    { normData1 := g1, normData2 := g2, resAxes := axes1,
      finalData1 := threshold01 g1, finalData2 := threshold01 g2 }

/-- The processing options of `CIU_Params.Parameters` consumed by
`CIU2_Main.process_raw_obj`, with well-typed values (`None` sentinels for
the optional stages). -/
structure Parameters where
  smoothing_window : Option ℕ
  smoothing_iterations : ℕ
  cropping_window_values : Option (List ℚ)
  interpolation_bins : ℤ

/-- Translation of `CIU2_Main.process_raw_obj` (CIU2_Main.py lines
141–170): normalize, optionally interpolate onto
`interpolation_bins` bins, optionally smooth `smoothing_iterations`
times, then crop if `cropping_window_values` is set.  The source's
cropping line calls `Raw_Processing.crop(norm_data, axes, crop_vals)`
with three positional arguments, but `crop` is defined with two
parameters `(analysis_obj, crop_vals)`; in Python that call raises
`TypeError` before any cropping happens, which is embedded as an error
result. -/
def process_raw_obj (f : ℕ → List ℚ → List ℚ) (rawdata : Mat) (dt_axis cv_axis : List ℚ)
    (params_obj : Parameters) : Except String (Mat × (List ℚ × List ℚ)) :=
  let norm_data := normalize_by_col rawdata
  let axes := (dt_axis, cv_axis)
  let step1 := if 0 < params_obj.interpolation_bins then
      interpolate_cv norm_data axes params_obj.interpolation_bins.toNat
    else (norm_data, axes)
  let step2 := match params_obj.smoothing_window with
    | some w => (smooth_iter f w params_obj.smoothing_iterations step1.1, step1.2)
    | none => step1
  match params_obj.cropping_window_values with
  | some _ => Except.error "TypeError: crop() takes 2 positional arguments but 3 were given"
  | none => Except.ok step2

/-- The AnalysisGrid dimension invariant: row count equals the DT-axis
length and every row's length equals the CV-axis length
(`rows(grid) == len(dt_axis) && cols(grid) == len(cv_axis)`). -/
def dimsOk (g : Mat) (axes : List ℚ × List ℚ) : Prop :=
  g.length = axes.1.length ∧ ∀ r ∈ g, r.length = axes.2.length

instance (g : Mat) (axes : List ℚ × List ℚ) : Decidable (dimsOk g axes) := by
  unfold dimsOk; infer_instance

/-! ### Helper lemmas about the list utilities -/

theorem getD_range_map {α : Type} (f : ℕ → α) (n i : ℕ) (d : α) (h : i < n) :
    ((List.range n).map f).getD i d = f i := by
  rw [List.getD_eq_getElem?_getD, List.getElem?_map, List.getElem?_range h]
  rfl

theorem getD_map_of_lt {α β : Type} (f : α → β) (l : List α) (i : ℕ) (d : β) (d' : α)
    (h : i < l.length) : (l.map f).getD i d = f (l.getD i d') := by
  rw [List.getD_eq_getElem?_getD, List.getElem?_map,
    List.getElem?_eq_getElem h, List.getD_eq_getElem l d' h]
  rfl

theorem getD_zipWith_of_lt {α β γ : Type} (f : α → β → γ) (a : List α) (b : List β)
    (i : ℕ) (da : α) (db : β) (dc : γ) (ha : i < a.length) (hb : i < b.length) :
    (List.zipWith f a b).getD i dc = f (a.getD i da) (b.getD i db) := by
  induction a generalizing b i with
  | nil => simp at ha
  | cons x xs ih =>
    cases b with
    | nil => simp at hb
    | cons y ys =>
      cases i with
      | zero => rfl
      | succ i =>
        simp only [List.zipWith_cons_cons, List.getD_cons_succ]
        exact ih ys i (by simpa using ha) (by simpa using hb)

theorem idxMapFrom_length (f : ℕ → ℚ → ℚ) (i : ℕ) (l : List ℚ) :
    (idxMapFrom f i l).length = l.length := by
  induction l generalizing i with
  | nil => rfl
  | cons x xs ih => simp [idxMapFrom, ih]

theorem idxMap_length (f : ℕ → ℚ → ℚ) (l : List ℚ) :
    (idxMap f l).length = l.length := idxMapFrom_length f 0 l

theorem idxMapFrom_getD (f : ℕ → ℚ → ℚ) (l : List ℚ) (i j : ℕ) (h : j < l.length) :
    (idxMapFrom f i l).getD j 0 = f (i + j) (l.getD j 0) := by
  induction l generalizing i j with
  | nil => simp at h
  | cons x xs ih =>
    cases j with
    | zero => rfl
    | succ j =>
      simp only [idxMapFrom, List.getD_cons_succ]
      rw [ih (i + 1) j (by simpa using h)]
      ring_nf

theorem idxMap_getD (f : ℕ → ℚ → ℚ) (l : List ℚ) (j : ℕ) (h : j < l.length) :
    (idxMap f l).getD j 0 = f j (l.getD j 0) := by
  rw [idxMap, idxMapFrom_getD f l 0 j h, Nat.zero_add]

theorem pySlice_length {α : Type} (l : List α) (lo hi : ℕ) :
    (pySlice l lo hi).length = min (hi + 1 - lo) (l.length - lo) := by
  simp [pySlice]

theorem mem_pySlice {α : Type} {l : List α} {lo hi : ℕ} {x : α} (h : x ∈ pySlice l lo hi) :
    x ∈ l := List.mem_of_mem_drop (List.mem_of_mem_take h)

theorem linspace_length (s e : ℚ) (n : ℕ) : (linspace s e n).length = n := by
  simp [linspace]

theorem linspace_getD (s e : ℚ) (n i : ℕ) (h : i < n) :
    (linspace s e n).getD i 0 = s + i * (e - s) / ((n : ℚ) - 1) := by
  rw [linspace, getD_range_map _ n i 0 h]

theorem linspace_head (s e : ℚ) (n : ℕ) (h : 0 < n) :
    (linspace s e n).getD 0 0 = s := by
  rw [linspace_getD s e n 0 h]
  simp

theorem linspace_last (s e : ℚ) (n : ℕ) (h : 2 ≤ n) :
    (linspace s e n).getD (n - 1) 0 = e := by
  rw [linspace_getD s e n (n - 1) (by omega)]
  have hn : ((n : ℚ) - 1) ≠ 0 := by
    have : (2 : ℚ) ≤ (n : ℚ) := by exact_mod_cast h
    linarith
  have hcast : ((n - 1 : ℕ) : ℚ) = (n : ℚ) - 1 := by
    have : 1 ≤ n := by omega
    push_cast [this]
    ring
  rw [hcast]
  field_simp

theorem snapStep_pos (s : ℚ) : 0 < snapStep s := by
  unfold snapStep
  simp only [List.foldl]
  split_ifs <;> norm_num

theorem arange_chain (s e step : ℚ) (hst : 0 < step) :
    List.Chain' (· < ·) (arange s e step) := by
  rw [arange, if_neg (not_le.mpr hst), List.chain'_map]
  rcases Nat.eq_zero_or_eq_succ_pred (⌈(e - s) / step⌉).toNat with h | h
  · rw [h]; exact List.chain'_nil
  · rw [h, List.chain'_range_succ]
    intro m _
    have : (m : ℚ) * step < ((m : ℚ) + 1) * step := by nlinarith
    push_cast
    linarith

theorem arange_head (s e step : ℚ) (x : ℚ) (hx : x ∈ (arange s e step).head?) : x = s := by
  rw [arange] at hx
  split_ifs at hx
  · simp at hx
  · rw [List.head?_map] at hx
    rcases Nat.eq_zero_or_eq_succ_pred (⌈(e - s) / step⌉).toNat with h | h
    · rw [h] at hx; simp at hx
    · rw [h, List.range_succ_eq_map] at hx
      simp only [List.head?_cons, Option.map_some, Option.mem_def, Option.some.injEq] at hx
      simp at hx
      linarith [hx]

theorem listMax_le_elem (l : List ℚ) (x : ℚ) (hx : x ∈ l) : x ≤ listMax l := by
  induction l with
  | nil => simp at hx
  | cons a t ih =>
    cases t with
    | nil =>
      have : x = a := by simpa using hx
      rw [this, listMax]
    | cons b t' =>
      rcases List.mem_cons.mp hx with h | h
      · rw [h, listMax]; exact le_max_left _ _
      · calc x ≤ listMax (b :: t') := ih h
          _ ≤ listMax (a :: b :: t') := by rw [listMax]; exact le_max_right _ _

theorem listMax_nonneg (l : List ℚ) (h : ∀ x ∈ l, 0 ≤ x) : 0 ≤ listMax l := by
  cases l with
  | nil => simp [listMax]
  | cons a t => exact le_trans (h a (List.mem_cons_self a t)) (listMax_le_elem _ _ (List.mem_cons_self a t))

theorem max_div_of_pos (a b c : ℚ) (hc : 0 < c) : max a b / c = max (a / c) (b / c) := by
  rcases le_total a b with h | h
  · rw [max_eq_right h, max_eq_right ((div_le_div_iff_of_pos_right hc).mpr h)]
  · rw [max_eq_left h, max_eq_left ((div_le_div_iff_of_pos_right hc).mpr h)]

theorem listMax_map_div (l : List ℚ) (c : ℚ) (hl : l ≠ []) (hc : 0 < c) :
    listMax (l.map (fun x => x / c)) = listMax l / c := by
  induction l with
  | nil => exact absurd rfl hl
  | cons a t ih =>
    cases t with
    | nil => simp [listMax]
    | cons b t' =>
      have ht : (b :: t') ≠ [] := by simp
      calc listMax ((a :: b :: t').map (fun x => x / c))
          = max (a / c) (listMax ((b :: t').map (fun x => x / c))) := by
            simp only [List.map_cons]; rfl
        _ = max (a / c) (listMax (b :: t') / c) := by rw [ih ht]
        _ = max a (listMax (b :: t')) / c := (max_div_of_pos _ _ _ hc).symm
        _ = listMax (a :: b :: t') / c := rfl

theorem transposeM_length (g : Mat) : (transposeM g).length = colCount g := by
  simp [transposeM]

theorem transposeM_mem_length (g : Mat) (r : List ℚ) (hr : r ∈ transposeM g) :
    r.length = g.length := by
  rw [transposeM] at hr
  rcases List.mem_map.mp hr with ⟨j, _, hj⟩
  rw [← hj, List.length_map]

theorem colCount_of_rect {g : Mat} {m n : ℕ} (hg : IsRect g m n) (hm : 0 < m) :
    colCount g = n := by
  obtain ⟨hlen, hrows⟩ := hg
  cases g with
  | nil => simp at hlen; omega
  | cons r t => exact hrows r (List.mem_cons_self r t)

theorem transposeM_rect {g : Mat} {m n : ℕ} (hg : IsRect g m n) (hm : 0 < m) :
    IsRect (transposeM g) n m := by
  constructor
  · rw [transposeM_length, colCount_of_rect hg hm]
  · intro r hr
    rw [transposeM_mem_length g r hr, hg.1]

theorem argminAux_cases (v : ℚ) (xs : List ℚ) (i bi : ℕ) (bd : ℚ) :
    argminAux v xs i bi bd = bi ∨
      (i ≤ argminAux v xs i bi bd ∧ argminAux v xs i bi bd < i + xs.length) := by
  induction xs generalizing i bi bd with
  | nil => left; rfl
  | cons x t ih =>
    rw [argminAux]
    split_ifs
    · rcases ih (i + 1) i |x - v| with h | h
      · right; rw [h]; simp
      · right; constructor
        · omega
        · simp only [List.length_cons]; omega
    · rcases ih (i + 1) bi bd with h | h
      · left; exact h
      · right; constructor
        · omega
        · simp only [List.length_cons]; omega

theorem find_nearest_lt (xs : List ℚ) (v : ℚ) (h : 0 < xs.length) :
    find_nearest xs v < xs.length := by
  cases xs with
  | nil => simp at h
  | cons x t =>
    rw [find_nearest]
    rcases argminAux_cases v t 1 0 |x - v| with h1 | h1
    · rw [h1]; simp
    · simp only [List.length_cons]; omega

theorem flatM_cons (r : List ℚ) (g : Mat) : flatM (r :: g) = r ++ flatM g := rfl

theorem sumSq_self_sub (g : Mat) : sumSq (matSub g g) = 0 := by
  induction g with
  | nil => rfl
  | cons r t ih =>
    have hrow : List.zipWith (fun x y => x - y) r r = List.replicate r.length 0 := by
      induction r with
      | nil => rfl
      | cons a s ihr => simp [List.zipWith_cons_cons, List.replicate_succ, ihr]
    rw [matSub, List.zipWith_cons_cons, ← matSub]
    rw [sumSq, flatM_cons, hrow] at *
    rw [List.foldr_append]
    have hfold : ∀ acc : ℚ, (List.replicate r.length (0 : ℚ)).foldr (fun x acc => x * x + acc) acc = acc := by
      intro acc
      induction r.length with
      | zero => rfl
      | succ k ihk => simp [List.replicate_succ, ihk]
    rw [hfold]
    exact ih

theorem columnAt_cons (r : List ℚ) (g : Mat) (j : ℕ) :
    columnAt (r :: g) j = r.getD j 0 :: columnAt g j := rfl

theorem columnAt_length (g : Mat) (j : ℕ) : (columnAt g j).length = g.length := by
  simp [columnAt]

theorem columnAt_map_idxMap (g : Mat) (n : ℕ) (hrect : ∀ r ∈ g, r.length = n)
    (f : ℕ → ℚ → ℚ) (j : ℕ) (hj : j < n) :
    columnAt (g.map (fun r => idxMap f r)) j = (columnAt g j).map (f j) := by
  induction g with
  | nil => rfl
  | cons r t ih =>
    have hr : r.length = n := hrect r (List.mem_cons_self r t)
    rw [List.map_cons, columnAt_cons, columnAt_cons, List.map_cons]
    rw [idxMap_getD f r j (by omega)]
    rw [ih (fun s hs => hrect s (List.mem_cons_of_mem r hs))]

theorem columnAt_mem (g : Mat) (n : ℕ) (hrect : ∀ r ∈ g, r.length = n) (j : ℕ) (hj : j < n)
    (x : ℚ) (hx : x ∈ columnAt g j) : ∃ r ∈ g, x ∈ r := by
  rw [columnAt] at hx
  rcases List.mem_map.mp hx with ⟨r, hr, hxr⟩
  refine ⟨r, hr, ?_⟩
  rw [← hxr, List.getD_eq_getElem r 0 (by rw [hrect r hr]; exact hj)]
  exact List.getElem_mem _

theorem colMaxes_getD (g : Mat) (j : ℕ) (hj : j < colCount g) :
    (colMaxes g).getD j 0 = colMaxAt g j := by
  rw [colMaxes, getD_range_map _ _ _ _ hj]

theorem getD_mem_of_lt {α : Type} (l : List α) (n : ℕ) (d : α) (h : n < l.length) :
    l.getD n d ∈ l := by
  rw [List.getD_eq_getElem l d h]
  exact List.getElem_mem h

theorem rect_map_rows {g : Mat} {m n : ℕ} (hg : IsRect g m n) (F : List ℚ → List ℚ)
    (hF : ∀ r, (F r).length = r.length) : IsRect (g.map F) m n := by
  constructor
  · rw [List.length_map, hg.1]
  · intro r hr
    rcases List.mem_map.mp hr with ⟨s, hs, hsr⟩
    rw [← hsr, hF s, hg.2 s hs]

theorem pySlice_rect {g : Mat} {m n : ℕ} (hg : IsRect g m n) (lo hi : ℕ) :
    IsRect (pySlice g lo hi) (min (hi + 1 - lo) (m - lo)) n := by
  constructor
  · rw [pySlice_length, hg.1]
  · intro r hr
    exact hg.2 r (mem_pySlice hr)

theorem normalize_rect {g : Mat} {m n : ℕ} (hg : IsRect g m n) :
    IsRect (normalize_by_col g) m n := by
  rw [normalize_by_col]
  split_ifs
  · exact rect_map_rows (rect_map_rows hg _ (fun r => idxMap_length _ r)) _
      (fun r => idxMap_length _ r)
  · exact rect_map_rows hg _ (fun r => idxMap_length _ r)

theorem normalize_columnAt {g : Mat} {m n : ℕ} (hg : IsRect g m n) (hm : 0 < m)
    (j : ℕ) (hj : j < n) :
    columnAt (normalize_by_col g) j =
      if colMaxAt g j = 0 then (columnAt g j).map (fun _ => 0)
      else (columnAt g j).map (fun x => x / colMaxAt g j) := by
  have hcc : colCount g = n := colCount_of_rect hg hm
  have hgetD : (colMaxes g).getD j 0 = colMaxAt g j := colMaxes_getD g j (by omega)
  have hnormrect : IsRect (g.map (fun r => idxMap (fun j x => x / (colMaxes g).getD j 0) r)) m n :=
    rect_map_rows hg _ (fun r => idxMap_length _ r)
  by_cases h0 : (0 : ℚ) ∈ colMaxes g
  · have hunf : normalize_by_col g =
        (g.map (fun r => idxMap (fun j x => x / (colMaxes g).getD j 0) r)).map
          (fun r => idxMap (fun j x => if (colMaxes g).getD j 0 = 0 then 0 else x) r) := by
      rw [normalize_by_col]
      exact if_pos h0
    rw [hunf, columnAt_map_idxMap _ n hnormrect.2 _ j hj,
      columnAt_map_idxMap _ n hg.2 _ j hj, List.map_map]
    by_cases hMj : colMaxAt g j = 0
    · rw [if_pos hMj]
      apply List.map_congr_left
      intro x _
      show (if (colMaxes g).getD j 0 = 0 then (0 : ℚ) else x / (colMaxes g).getD j 0) = 0
      rw [hgetD, if_pos hMj]
    · rw [if_neg hMj]
      apply List.map_congr_left
      intro x _
      show (if (colMaxes g).getD j 0 = 0 then (0 : ℚ) else x / (colMaxes g).getD j 0)
          = x / colMaxAt g j
      rw [hgetD, if_neg hMj]
  · have hMj : colMaxAt g j ≠ 0 := by
      intro hzero
      apply h0
      rw [← hzero, ← hgetD]
      exact getD_mem_of_lt _ _ _ (by simp [colMaxes, hcc]; omega)
    have hunf : normalize_by_col g =
        g.map (fun r => idxMap (fun j x => x / (colMaxes g).getD j 0) r) := by
      rw [normalize_by_col]
      exact if_neg h0
    rw [hunf, if_neg hMj, columnAt_map_idxMap _ n hg.2 _ j hj]
    apply List.map_congr_left
    intro x _
    rw [hgetD]

theorem sav_gol_rect {g : Mat} {m n : ℕ} (hg : IsRect g m n) (hm : 0 < m) (hn : 0 < n)
    (f : ℕ → List ℚ → List ℚ) (hf : ∀ w l, (f w l).length = l.length) (w : ℕ) :
    IsRect (sav_gol_smooth f g w) m n := by
  rw [sav_gol_smooth]
  have h1 : IsRect (transposeM g) n m := transposeM_rect hg hm
  have h2 : IsRect ((transposeM g).map
      (fun col => f (if w % 2 = 0 then w + 1 else w) col)) n m :=
    rect_map_rows h1 (fun col => f (if w % 2 = 0 then w + 1 else w) col) (fun r => hf _ r)
  exact transposeM_rect h2 hn

theorem smooth_iter_rect {g : Mat} {m n : ℕ} (hg : IsRect g m n) (hm : 0 < m) (hn : 0 < n)
    (f : ℕ → List ℚ → List ℚ) (hf : ∀ w l, (f w l).length = l.length) (w k : ℕ) :
    IsRect (smooth_iter f w k g) m n := by
  induction k generalizing g with
  | zero => exact hg
  | succ k ih => exact ih (sav_gol_rect hg hm hn f hf w)

theorem crop_dimsOk {g : Mat} {m n : ℕ} (hg : IsRect g m n) (dt cv : List ℚ)
    (hdt : dt.length = m) (hcv : cv.length = n) (hm : 0 < m) (hn : 0 < n)
    (vals : List ℚ)
    (hd : find_nearest dt (vals.getD 0 0) ≤ find_nearest dt (vals.getD 1 0))
    (hc : find_nearest cv (vals.getD 2 0) ≤ find_nearest cv (vals.getD 3 0)) :
    dimsOk (crop g dt cv vals).1 (crop g dt cv vals).2 := by
  rw [crop]
  have hdh : find_nearest dt (vals.getD 1 0) < m := by
    rw [← hdt]; exact find_nearest_lt dt _ (by omega)
  have hch : find_nearest cv (vals.getD 3 0) < n := by
    rw [← hcv]; exact find_nearest_lt cv _ (by omega)
  set dl := find_nearest dt (vals.getD 0 0) with hdl_def
  set dh := find_nearest dt (vals.getD 1 0) with hdh_def
  set cl := find_nearest cv (vals.getD 2 0) with hcl_def
  set ch := find_nearest cv (vals.getD 3 0) with hch_def
  set m1r : ℕ := if dh = dl then m else dh + 1 - dl with hm1r
  have hm1 : IsRect (if dh = dl then g else pySlice g dl dh) m1r n := by
    by_cases hcase : dh = dl
    · rw [if_pos hcase, hm1r, if_pos hcase]; exact hg
    · rw [if_neg hcase, hm1r, if_neg hcase]
      have hsl := pySlice_rect hg dl dh
      have hmin : min (dh + 1 - dl) (m - dl) = dh + 1 - dl := by omega
      rwa [hmin] at hsl
  have hdt' : (if dh = dl then dt else pySlice dt dl dh).length = m1r := by
    by_cases hcase : dh = dl
    · rw [if_pos hcase, hm1r, if_pos hcase]; exact hdt
    · rw [if_neg hcase, hm1r, if_neg hcase, pySlice_length, hdt]; omega
  have hm1r_pos : 0 < m1r := by
    rw [hm1r]; split_ifs <;> omega
  have h2 : IsRect (transposeM (if dh = dl then g else pySlice g dl dh)) n m1r :=
    transposeM_rect hm1 hm1r_pos
  set t2 := transposeM (if dh = dl then g else pySlice g dl dh) with ht2
  set n3 : ℕ := if cl = ch then n else ch + 1 - cl with hn3
  have hm3 : IsRect (if cl = ch then t2 else pySlice t2 cl ch) n3 m1r := by
    by_cases hcase : cl = ch
    · rw [if_pos hcase, hn3, if_pos hcase]; exact h2
    · rw [if_neg hcase, hn3, if_neg hcase]
      have hsl := pySlice_rect h2 cl ch
      have hmin : min (ch + 1 - cl) (n - cl) = ch + 1 - cl := by omega
      rwa [hmin] at hsl
  have hcv' : (if cl = ch then cv else pySlice cv cl ch).length = n3 := by
    by_cases hcase : cl = ch
    · rw [if_pos hcase, hn3, if_pos hcase]; exact hcv
    · rw [if_neg hcase, hn3, if_neg hcase, pySlice_length, hcv]; omega
  have hn3_pos : 0 < n3 := by
    rw [hn3]; split_ifs <;> omega
  have hout : IsRect (transposeM (if cl = ch then t2 else pySlice t2 cl ch)) m1r n3 :=
    transposeM_rect hm3 hn3_pos
  constructor
  · rw [hout.1, hdt']
  · intro r hr
    rw [hout.2 r hr, hcv']

/-! ### Claim C1 -/

/-- The property claimed of the comparator: the returned difference grid is
the elementwise difference of the two independently 0.1-thresholded grids,
and the returned scalar is `sqrt(sum(D^2) / (nonzero(A') + nonzero(B'))) * 100`
with the nonzero counts taken on the thresholded grids. -/
def RmsdFormulaOk (A B : Mat) (m n : ℕ) : Prop :=
  ((rmsd_difference A B).1 = matSub (threshold01 A) (threshold01 B)
    ∧ ∀ i j, i < m → j < n →
        getEntry (rmsd_difference A B).1 i j = pyThresh (getEntry A i j) - pyThresh (getEntry B i j))
  ∧ (countNonzero (threshold01 A) + countNonzero (threshold01 B) ≠ 0 →
      (rmsd_difference A B).2 =
        some (Real.sqrt ((sumSq (matSub (threshold01 A) (threshold01 B)) : ℝ)
            / ((countNonzero (threshold01 A) : ℝ) + (countNonzero (threshold01 B) : ℝ))) * 100))

/-- Claim C1: for every pair of same-shaped grids, the comparator zeroes
every entry strictly below 0.1 in each grid independently, returns the
elementwise difference of the thresholded grids, and returns the scalar
`sqrt(sum(D^2) / (nonzero_count(A') + nonzero_count(B'))) * 100` where the
nonzero counts are taken on the thresholded grids.  (The nonzero-count
denominator is the one divisor; when it is zero the float code produces
NaN, modelled as `none`, hence the nonzero-denominator hypothesis on the
scalar equation.) -/
theorem claim1_rmsd_formula (A B : Mat) (m n : ℕ) (hA : IsRect A m n) (hB : IsRect B m n) :
    RmsdFormulaOk A B m n := by
  have hAlen : A.length = m := hA.1
  have hBlen : B.length = m := hB.1
  have hlenA : (threshold01 A).length = m := by rw [threshold01, List.length_map, hAlen]
  have hlenB : (threshold01 B).length = m := by rw [threshold01, List.length_map, hBlen]
  refine ⟨⟨rfl, ?_⟩, ?_⟩
  · intro i j hi hj
    have hiA : i < A.length := by omega
    have hiB : i < B.length := by omega
    have hrowA : (A.getD i []).length = n := hA.2 _ (getD_mem_of_lt A i [] hiA)
    have hrowB : (B.getD i []).length = n := hB.2 _ (getD_mem_of_lt B i [] hiB)
    have htA : (threshold01 A).getD i [] = (A.getD i []).map pyThresh :=
      getD_map_of_lt _ A i [] [] hiA
    have htB : (threshold01 B).getD i [] = (B.getD i []).map pyThresh :=
      getD_map_of_lt _ B i [] [] hiB
    have hstep : (rmsd_difference A B).1 = matSub (threshold01 A) (threshold01 B) := rfl
    rw [getEntry, hstep, matSub,
      getD_zipWith_of_lt _ (threshold01 A) (threshold01 B) i [] [] [] (by omega) (by omega),
      getD_zipWith_of_lt _ _ _ j 0 0 0
        (by rw [htA, List.length_map]; omega) (by rw [htB, List.length_map]; omega),
      htA, htB, getD_map_of_lt pyThresh _ j 0 0 (by omega),
      getD_map_of_lt pyThresh _ j 0 0 (by omega)]
    rfl
  · intro h
    simp only [rmsd_difference]
    rw [if_neg h]

/-- Witness for C1 at a concrete input. -/
theorem claim1_rmsd_formula_witness :
    IsRect [[(1 : ℚ)]] 1 1 ∧ RmsdFormulaOk [[(1 : ℚ)]] [[(1 : ℚ)/20]] 1 1 :=
  ⟨by decide, claim1_rmsd_formula [[(1 : ℚ)]] [[(1 : ℚ)/20]] 1 1 (by decide) (by decide)⟩

/-! ### Claim C9 -/

/-- Claim C9 counterexample: the claim says every returned RMSD is a
number ≥ 0, and that a grid compared with itself yields exactly 0.  For
the grids `[[0.05]]` (all entries below the 0.1 threshold) both nonzero
counts are 0, the source divides by zero in float arithmetic and returns
NaN (modelled `none`), which is neither a number ≥ 0 nor 0. -/
theorem claim9_counterexample :
    ¬ ∃ r : ℝ, (rmsd_difference [[(1 : ℚ)/20]] [[(1 : ℚ)/20]]).2 = some r ∧ 0 ≤ r := by
  intro ⟨r, hr, _⟩
  have hcnt : countNonzero (threshold01 [[(1 : ℚ)/20]]) = 0 := by
    norm_num [countNonzero, threshold01, pyThresh, flatM, List.countP_cons, List.countP_nil]
  have hnone : (rmsd_difference [[(1 : ℚ)/20]] [[(1 : ℚ)/20]]).2 = none := by
    simp only [rmsd_difference]
    rw [if_pos (by rw [hcnt])]
  rw [hnone] at hr
  exact Option.noConfusion hr

/-- Claim C9 (amended): whenever at least one cell of the two thresholded
grids is nonzero (so the denominator `n1 + n2` is positive and no NaN
arises), the returned RMSD is a number ≥ 0; and a grid with at least one
cell surviving thresholding compared with itself returns exactly 0. -/
theorem claim9_amended (A B : Mat)
    (hAB : 0 < countNonzero (threshold01 A) + countNonzero (threshold01 B))
    (hAA : 0 < countNonzero (threshold01 A)) :
    (∃ r : ℝ, (rmsd_difference A B).2 = some r ∧ 0 ≤ r)
      ∧ (rmsd_difference A A).2 = some 0 := by
  constructor
  · refine ⟨Real.sqrt ((sumSq (matSub (threshold01 A) (threshold01 B)) : ℝ)
      / ((countNonzero (threshold01 A) : ℝ) + (countNonzero (threshold01 B) : ℝ))) * 100, ?_, ?_⟩
    · simp only [rmsd_difference]
      rw [if_neg (by omega)]
    · exact mul_nonneg (Real.sqrt_nonneg _) (by norm_num)
  · simp only [rmsd_difference]
    rw [if_neg (by omega), sumSq_self_sub]
    norm_num

/-- Witness for C9 (amended) at a concrete input. -/
theorem claim9_amended_witness :
    0 < countNonzero (threshold01 [[(1 : ℚ)]]) + countNonzero (threshold01 [[(0 : ℚ)]])
      ∧ ((∃ r : ℝ, (rmsd_difference [[(1 : ℚ)]] [[(0 : ℚ)]]).2 = some r ∧ 0 ≤ r)
          ∧ (rmsd_difference [[(1 : ℚ)]] [[(1 : ℚ)]]).2 = some 0) :=
  ⟨by norm_num [countNonzero, threshold01, pyThresh, flatM, List.countP_cons, List.countP_nil],
    claim9_amended [[(1 : ℚ)]] [[(0 : ℚ)]]
      (by norm_num [countNonzero, threshold01, pyThresh, flatM, List.countP_cons, List.countP_nil])
      (by norm_num [countNonzero, threshold01, pyThresh, flatM, List.countP_cons, List.countP_nil])⟩

/-! ### Claim C2 -/

/-- Claim C2 counterexample: the claim says the caller's original grid
data are unchanged after every comparison.  But with matching axis
lengths `compare_basic_raw` hands `analysis_obj1.ciu_data` itself to
`rmsd_difference`, whose masked assignment `data_1[data_1 < 0.1] = 0`
mutates it in place: comparing the grids `[[0.05]]` and `[[0.15]]` on
equal-length axes leaves the first caller's grid as `[[0]]`, not
`[[0.05]]`. -/
theorem claim2_counterexample :
    (compare_basic_raw [[(1 : ℚ)/20]] ([1], [2]) [[(3 : ℚ)/20]] ([1], [2])).finalData1
      ≠ [[(1 : ℚ)/20]] := by
  norm_num [compare_basic_raw, threshold01, pyThresh]

/-- Claim C2 (amended): the 0.1 thresholding mutates the arrays passed to
`rmsd_difference` in place.  When the comparator interpolated (axis
lengths differ on some dimension) those arrays are fresh interpolated
copies and the caller's originals are unchanged; when both axis lengths
match, the arrays are the caller's own grids, so each original ends up
equal to its thresholded value (entries below 0.1 zeroed). -/
theorem claim2_amended (g1 g2 : Mat) (a1 a2 : List ℚ × List ℚ) :
    ((¬ a1.1.length = a2.1.length ∨ ¬ a1.2.length = a2.2.length) →
      (compare_basic_raw g1 a1 g2 a2).finalData1 = g1
        ∧ (compare_basic_raw g1 a1 g2 a2).finalData2 = g2)
    ∧ ((a1.1.length = a2.1.length ∧ a1.2.length = a2.2.length) →
      (compare_basic_raw g1 a1 g2 a2).finalData1 = threshold01 g1
        ∧ (compare_basic_raw g1 a1 g2 a2).finalData2 = threshold01 g2) := by
  constructor
  · intro h
    simp only [compare_basic_raw, if_pos h]
    simp
  · intro h
    have hneg : ¬ (¬ a1.1.length = a2.1.length ∨ ¬ a1.2.length = a2.2.length) := by
      simp [h.1, h.2]
    simp only [compare_basic_raw, if_neg hneg]
    simp

/-- Witness for C2 (amended) at concrete inputs. -/
theorem claim2_amended_witness :
    ((¬ ([(1 : ℚ)], [(2 : ℚ)]).1.length = ([(1 : ℚ), 3], [(2 : ℚ)]).1.length
        ∨ ¬ ([(1 : ℚ)], [(2 : ℚ)]).2.length = ([(1 : ℚ), 3], [(2 : ℚ)]).2.length) →
      (compare_basic_raw [[(1 : ℚ)/20]] ([1], [2]) [[(3 : ℚ)/20]] ([1, 3], [2])).finalData1
          = [[(1 : ℚ)/20]]
        ∧ (compare_basic_raw [[(1 : ℚ)/20]] ([1], [2]) [[(3 : ℚ)/20]] ([1, 3], [2])).finalData2
          = [[(3 : ℚ)/20]])
    ∧ ((([(1 : ℚ)], [(2 : ℚ)]).1.length = ([(1 : ℚ), 3], [(2 : ℚ)]).1.length
        ∧ ([(1 : ℚ)], [(2 : ℚ)]).2.length = ([(1 : ℚ), 3], [(2 : ℚ)]).2.length) →
      (compare_basic_raw [[(1 : ℚ)/20]] ([1], [2]) [[(3 : ℚ)/20]] ([1, 3], [2])).finalData1
          = threshold01 [[(1 : ℚ)/20]]
        ∧ (compare_basic_raw [[(1 : ℚ)/20]] ([1], [2]) [[(3 : ℚ)/20]] ([1, 3], [2])).finalData2
          = threshold01 [[(3 : ℚ)/20]]) :=
  claim2_amended [[(1 : ℚ)/20]] [[(3 : ℚ)/20]] ([1], [2]) ([1, 3], [2])

/-! ### Claim C3 -/

/-- Claim C3 counterexample: the claim says every grid with
`max > min` yields a strictly ascending level list for any tunables.  For
the grid `[[0.5, 1]]` (so `min_val = 49`) with `merge_cutoff = 10` and
`num_contours = 1`, the source produces `[0.49, 0.10, 0.20, …]`: the
prepended `min_val/100 = 0.49` exceeds the first arange level
`merge_cutoff/100 = 0.10`, so the list is not ascending. -/
theorem claim3_counterexample :
    gridMin [[(1 : ℚ)/2, 1]] < gridMax [[(1 : ℚ)/2, 1]]
      ∧ ¬ strictAscending (get_contour_levels [[(1 : ℚ)/2, 1]] 10 1) := by
  constructor
  · norm_num [gridMin, gridMax, flatM, listMin, listMax]
  · have h1 : ⌈(91 : ℚ)/10⌉ = 10 := by
      apply Int.ceil_eq_iff.mpr
      constructor <;> norm_num
    have hc : (⌈(91 : ℚ)/10⌉).toNat = 10 := by rw [h1]; rfl
    have hr : List.range 10 = [0, 1, 2, 3, 4, 5, 6, 7, 8, 9] := by decide
    norm_num [get_contour_levels, gridMax, gridMin, flatM, listMax, listMin, pyRound,
      snapStep, arange, strictAscending, abs, max_def, hc, hr, List.chain'_cons]

/-- Claim C3 (amended): the level list is strictly ascending provided the
prepended bottom level lies below the merge cutoff, i.e.
`round(min(grid)*100) - 1 < merge_cutoff` (which holds for the intended
normalized grids, whose minimum is far below the default cutoff of 10),
with a positive contour count. -/
theorem claim3_amended (g : Mat) (mc : ℚ) (nc : ℕ) (hnc : 0 < nc)
    (hrange : gridMin g < gridMax g)
    (hmc : ((pyRound (gridMin g * 100) - 1 : ℤ) : ℚ) < mc) :
    strictAscending (get_contour_levels g mc nc) := by
  have hstep : 0 < snapStep ((((pyRound (gridMax g * 100) + 1 : ℤ) : ℚ)
      - ((pyRound (gridMin g * 100) - 1 : ℤ) : ℚ)) / (nc : ℚ)) := snapStep_pos _
  simp only [get_contour_levels, strictAscending]
  rw [List.chain'_map, List.chain'_cons']
  constructor
  · intro y hy
    have hy' : y = mc := arange_head _ _ _ y hy
    rw [hy']
    exact (div_lt_div_iff_of_pos_right (by norm_num)).mpr hmc
  · exact (arange_chain _ _ _ hstep).imp
      (fun {a b} hab => (div_lt_div_iff_of_pos_right (by norm_num)).mpr hab)

/-- Witness for C3 (amended) at a concrete input. -/
theorem claim3_amended_witness :
    0 < 100 ∧ strictAscending (get_contour_levels [[(0 : ℚ), 1]] 10 100) :=
  ⟨by norm_num,
    claim3_amended [[(0 : ℚ), 1]] 10 100 (by norm_num)
      (by norm_num [gridMin, gridMax, flatM, listMin, listMax])
      (by norm_num [gridMin, flatM, listMin, pyRound])⟩

/-! ### Claim C4 -/

/-- Claim C4 evaluation at the failing input (code bug): `crop`'s own
docstring and the spec say `crop_vals = [cv_low, cv_high, dt_low, dt_high]`,
but the code resolves `crop_vals[0]`/`crop_vals[1]` against the DT axis and
`crop_vals[2]`/`crop_vals[3]` against the CV axis.  With
`dt_axis = [0,1,2]`, `cv_axis = [10,20,30]` and
`crop_vals = [10, 20, 0, 2]` (CV window 10–20, full DT window per the
documented order), the DT bounds resolve from the CV values 10 and 20 to
the single index 2 and the CV bounds resolve from the DT values 0 and 2 to
the single index 0, so nothing at all is cropped — instead of the CV axis
being cut to `[10, 20]`. -/
theorem claim4_crop_eval :
    crop [[(1 : ℚ), 2, 3], [4, 5, 6], [7, 8, 9]] [0, 1, 2] [10, 20, 30] [10, 20, 0, 2]
      = ([[(1 : ℚ), 2, 3], [4, 5, 6], [7, 8, 9]], ([0, 1, 2], [10, 20, 30])) := by
  have h1 : find_nearest [(0 : ℚ), 1, 2] 10 = 2 := by
    norm_num [find_nearest, argminAux, abs, max_def]
  have h2 : find_nearest [(0 : ℚ), 1, 2] 20 = 2 := by
    norm_num [find_nearest, argminAux, abs, max_def]
  have h3 : find_nearest [(10 : ℚ), 20, 30] 0 = 0 := by
    norm_num [find_nearest, argminAux, abs, max_def]
  have h4 : find_nearest [(10 : ℚ), 20, 30] 2 = 0 := by
    norm_num [find_nearest, argminAux, abs, max_def]
  have hr : List.range 3 = [0, 1, 2] := by decide
  simp only [crop, List.getD]
  norm_num [h1, h2, h3, h4, transposeM, colCount, columnAt, hr, List.getD]

/-! ### Claim C5 -/

/-- Claim C5 counterexample: the claim says every pipeline stage preserves
`rows(grid) = len(dt_axis)` and `cols(grid) = len(cv_axis)`.  The uniform
CV interpolation stage does not: called by `process_raw_obj` on the 2×2
grid with axes `([0,1], [10,20])` and 3 target bins, it returns a 2×3 grid
with axes `([0, 0.5, 1], [10, 20])`, so the row count 2 differs from the
first axis length 3 (and the column count 3 from the second axis
length 2). -/
theorem claim5_counterexample :
    dimsOk [[(1 : ℚ), 2], [3, 4]] ([0, 1], [10, 20])
      ∧ ¬ dimsOk (interpolate_cv [[(1 : ℚ), 2], [3, 4]] ([0, 1], [10, 20]) 3).1
          (interpolate_cv [[(1 : ℚ), 2], [3, 4]] ([0, 1], [10, 20]) 3).2 := by
  constructor
  · decide
  · simp [dimsOk, interpolate_cv, linspace]

/-- Claim C5 (amended): normalization, smoothing (for any column filter
that preserves length, as the external Savitzky–Golay routine does) and
cropping (with the resolved low index at most the high index on each
axis) preserve the dimension invariant; the uniform CV interpolation stage
instead always returns a grid of shape `rows × N` with axes
`(new N-point axis, old axes[1])`, which violates the invariant whenever
`N` differs from the row count. -/
theorem claim5_amended (g : Mat) (m n : ℕ) (hg : IsRect g m n)
    (dt cv : List ℚ) (hdt : dt.length = m) (hcv : cv.length = n)
    (hm : 0 < m) (hn : 0 < n)
    (f : ℕ → List ℚ → List ℚ) (hf : ∀ w l, (f w l).length = l.length)
    (w k : ℕ) (vals : List ℚ) (N : ℕ)
    (hd : find_nearest dt (vals.getD 0 0) ≤ find_nearest dt (vals.getD 1 0))
    (hc : find_nearest cv (vals.getD 2 0) ≤ find_nearest cv (vals.getD 3 0)) :
    dimsOk (normalize_by_col g) (dt, cv)
    ∧ dimsOk (smooth_iter f w k g) (dt, cv)
    ∧ dimsOk (crop g dt cv vals).1 (crop g dt cv vals).2
    ∧ ((interpolate_cv g (dt, cv) N).1.length = m
        ∧ (interpolate_cv g (dt, cv) N).2.1.length = N
        ∧ (interpolate_cv g (dt, cv) N).2.2 = cv
        ∧ ∀ r ∈ (interpolate_cv g (dt, cv) N).1, r.length = N) := by
  refine ⟨?_, ?_, ?_, ?_⟩
  · have hr := normalize_rect hg
    exact ⟨by rw [hr.1, hdt], fun r hrm => by rw [hr.2 r hrm, hcv]⟩
  · have hr := smooth_iter_rect hg hm hn f hf w k
    exact ⟨by rw [hr.1, hdt], fun r hrm => by rw [hr.2 r hrm, hcv]⟩
  · exact crop_dimsOk hg dt cv hdt hcv hm hn vals hd hc
  · refine ⟨?_, ?_, rfl, ?_⟩
    · simp [interpolate_cv, hg.1]
    · simp [interpolate_cv, linspace_length]
    · intro r hrm
      simp only [interpolate_cv, List.mem_map] at hrm
      rcases hrm with ⟨s, _, hs⟩
      rw [← hs, List.length_map, linspace_length]

/-- Witness for C5 (amended) at concrete inputs. -/
theorem claim5_amended_witness :
    IsRect [[(1 : ℚ), 2], [3, 4]] 2 2
      ∧ (dimsOk (normalize_by_col [[(1 : ℚ), 2], [3, 4]]) ([0, 1], [10, 20])
        ∧ dimsOk (smooth_iter (fun _ l => l) 4 2 [[(1 : ℚ), 2], [3, 4]]) ([0, 1], [10, 20])
        ∧ dimsOk (crop [[(1 : ℚ), 2], [3, 4]] [0, 1] [10, 20] [0, 1, 10, 20]).1
            (crop [[(1 : ℚ), 2], [3, 4]] [0, 1] [10, 20] [0, 1, 10, 20]).2
        ∧ ((interpolate_cv [[(1 : ℚ), 2], [3, 4]] ([0, 1], [10, 20]) 5).1.length = 2
            ∧ (interpolate_cv [[(1 : ℚ), 2], [3, 4]] ([0, 1], [10, 20]) 5).2.1.length = 5
            ∧ (interpolate_cv [[(1 : ℚ), 2], [3, 4]] ([0, 1], [10, 20]) 5).2.2 = [10, 20]
            ∧ ∀ r ∈ (interpolate_cv [[(1 : ℚ), 2], [3, 4]] ([0, 1], [10, 20]) 5).1,
                r.length = 5)) :=
  ⟨by decide,
    claim5_amended [[(1 : ℚ), 2], [3, 4]] 2 2 (by decide) [0, 1] [10, 20] (by decide)
      (by decide) (by decide) (by decide) (fun _ l => l) (fun _ _ => rfl) 4 2
      [0, 1, 10, 20] 5
      (by norm_num [find_nearest, argminAux, abs, max_def])
      (by norm_num [find_nearest, argminAux, abs, max_def])⟩

/-! ### Claim C6 -/

/-- Claim C6: uniform CV resampling onto `N` bins (the axes pair given to
`interpolate_cv` in its own documented order, x/CV axis first) returns a
new CV axis of exactly `N` evenly spaced points running from the old CV
axis's first value to its last, interpolates every row independently from
the old CV axis onto the new one, leaves the other (DT) axis untouched,
and yields a grid of shape `rows × N` with the row count unchanged. -/
theorem claim6_interpolate_cv (g : Mat) (m n : ℕ) (hg : IsRect g m n)
    (cvAxis dtAxis : List ℚ) (hcv : cvAxis.length = n) (hn : 2 ≤ n) (N : ℕ) (hN : 2 ≤ N) :
    (interpolate_cv g (cvAxis, dtAxis) N).2.1.length = N
    ∧ (interpolate_cv g (cvAxis, dtAxis) N).2.1.getD 0 0 = cvAxis.getD 0 0
    ∧ (interpolate_cv g (cvAxis, dtAxis) N).2.1.getD (N - 1) 0 = cvAxis.getD (n - 1) 0
    ∧ (∀ i, i < N → (interpolate_cv g (cvAxis, dtAxis) N).2.1.getD i 0
        = cvAxis.getD 0 0 + (i : ℚ) * (cvAxis.getD (n - 1) 0 - cvAxis.getD 0 0) / ((N : ℚ) - 1))
    ∧ (interpolate_cv g (cvAxis, dtAxis) N).2.2 = dtAxis
    ∧ (interpolate_cv g (cvAxis, dtAxis) N).1
        = g.map (fun row => (linspace (cvAxis.getD 0 0) (cvAxis.getD (n - 1) 0) N).map
            (linInterp cvAxis row))
    ∧ (interpolate_cv g (cvAxis, dtAxis) N).1.length = m
    ∧ ∀ r ∈ (interpolate_cv g (cvAxis, dtAxis) N).1, r.length = N := by
  refine ⟨?_, ?_, ?_, ?_, rfl, ?_, ?_, ?_⟩
  · simp [interpolate_cv, linspace_length]
  · simp only [interpolate_cv]
    exact linspace_head _ _ N (by omega)
  · simp only [interpolate_cv, hcv]
    exact linspace_last _ _ N hN
  · intro i hi
    simp only [interpolate_cv, hcv]
    exact linspace_getD _ _ N i hi
  · simp only [interpolate_cv, hcv]
  · simp [interpolate_cv, hg.1]
  · intro r hrm
    simp only [interpolate_cv, List.mem_map] at hrm
    rcases hrm with ⟨s, _, hs⟩
    rw [← hs, List.length_map, linspace_length]

/-- Witness for C6 at a concrete input. -/
theorem claim6_interpolate_cv_witness :
    IsRect [[(1 : ℚ), 2], [3, 4]] 2 2
      ∧ ((interpolate_cv [[(1 : ℚ), 2], [3, 4]] ([10, 20], [0, 1]) 5).2.1.length = 5
        ∧ (interpolate_cv [[(1 : ℚ), 2], [3, 4]] ([10, 20], [0, 1]) 5).2.1.getD 0 0
            = [(10 : ℚ), 20].getD 0 0
        ∧ (interpolate_cv [[(1 : ℚ), 2], [3, 4]] ([10, 20], [0, 1]) 5).2.1.getD (5 - 1) 0
            = [(10 : ℚ), 20].getD (2 - 1) 0
        ∧ (∀ i, i < 5 → (interpolate_cv [[(1 : ℚ), 2], [3, 4]] ([10, 20], [0, 1]) 5).2.1.getD i 0
            = [(10 : ℚ), 20].getD 0 0
              + (i : ℚ) * ([(10 : ℚ), 20].getD (2 - 1) 0 - [(10 : ℚ), 20].getD 0 0) / ((5 : ℚ) - 1))
        ∧ (interpolate_cv [[(1 : ℚ), 2], [3, 4]] ([10, 20], [0, 1]) 5).2.2 = [0, 1]
        ∧ (interpolate_cv [[(1 : ℚ), 2], [3, 4]] ([10, 20], [0, 1]) 5).1
            = [[(1 : ℚ), 2], [3, 4]].map
                (fun row => (linspace ([(10 : ℚ), 20].getD 0 0) ([(10 : ℚ), 20].getD (2 - 1) 0) 5).map
                  (linInterp [10, 20] row))
        ∧ (interpolate_cv [[(1 : ℚ), 2], [3, 4]] ([10, 20], [0, 1]) 5).1.length = 2
        ∧ ∀ r ∈ (interpolate_cv [[(1 : ℚ), 2], [3, 4]] ([10, 20], [0, 1]) 5).1, r.length = 5) :=
  ⟨by decide,
    claim6_interpolate_cv [[(1 : ℚ), 2], [3, 4]] 2 2 (by decide) [10, 20] [0, 1]
      (by decide) (by decide) 5 (by decide)⟩

/-! ### Claim C7 -/

/-- Claim C7 counterexample: the claim quantifies over every grid, but for
the all-negative column `[-1, -2]` the pre-normalization maximum is `-1`
(not zero), the code divides by it, and the post-normalization column is
`[1, 2]` with maximum `2`, not `1`. -/
theorem claim7_counterexample :
    colMaxAt [[(-1 : ℚ)], [(-2 : ℚ)]] 0 ≠ 0
      ∧ colMaxAt (normalize_by_col [[(-1 : ℚ)], [(-2 : ℚ)]]) 0 ≠ 1 := by
  constructor <;>
    norm_num [colMaxAt, columnAt, listMax, normalize_by_col, colMaxes, colCount,
      idxMap, idxMapFrom, List.getD, max_def, List.range_succ]

/-- Claim C7 (amended): for every grid of nonnegative intensities, each
column whose pre-normalization maximum is zero comes out all-zero (no
NaN/Inf values exist in the exact model), every other column's maximum
after normalization is exactly 1, and the output has the same shape as
the input. -/
theorem claim7_amended (g : Mat) (m n : ℕ) (hg : IsRect g m n) (hm : 0 < m)
    (hnn : ∀ r ∈ g, ∀ x ∈ r, 0 ≤ x) (j : ℕ) (hj : j < n) :
    (colMaxAt g j = 0 → ∀ x ∈ columnAt (normalize_by_col g) j, x = 0)
    ∧ (colMaxAt g j ≠ 0 → colMaxAt (normalize_by_col g) j = 1)
    ∧ IsRect (normalize_by_col g) m n := by
  have hchar := normalize_columnAt hg hm j hj
  refine ⟨?_, ?_, normalize_rect hg⟩
  · intro h0 x hx
    rw [hchar, if_pos h0] at hx
    rcases List.mem_map.mp hx with ⟨y, _, hy⟩
    exact hy.symm
  · intro hne
    have hlen : (columnAt g j).length = m := by rw [columnAt_length, hg.1]
    have hcolne : columnAt g j ≠ [] := by
      intro hnil
      rw [hnil] at hlen
      simp at hlen
      omega
    have hnncol : ∀ x ∈ columnAt g j, 0 ≤ x := by
      intro x hx
      rcases columnAt_mem g n hg.2 j hj x hx with ⟨r, hr, hxr⟩
      exact hnn r hr x hxr
    have hMpos : 0 < colMaxAt g j :=
      lt_of_le_of_ne (listMax_nonneg _ hnncol) (Ne.symm hne)
    rw [colMaxAt, hchar, if_neg hne, listMax_map_div _ _ hcolne hMpos]
    exact div_self hne

/-- Witness for C7 (amended) at a concrete input. -/
theorem claim7_amended_witness :
    IsRect [[(2 : ℚ), 0], [4, 0], [8, 0]] 3 2
      ∧ ((colMaxAt [[(2 : ℚ), 0], [4, 0], [8, 0]] 0 = 0 →
            ∀ x ∈ columnAt (normalize_by_col [[(2 : ℚ), 0], [4, 0], [8, 0]]) 0, x = 0)
        ∧ (colMaxAt [[(2 : ℚ), 0], [4, 0], [8, 0]] 0 ≠ 0 →
            colMaxAt (normalize_by_col [[(2 : ℚ), 0], [4, 0], [8, 0]]) 0 = 1)
        ∧ IsRect (normalize_by_col [[(2 : ℚ), 0], [4, 0], [8, 0]]) 3 2) :=
  ⟨by decide,
    claim7_amended [[(2 : ℚ), 0], [4, 0], [8, 0]] 3 2 (by decide) (by decide)
      (by norm_num) 0 (by decide)⟩

/-! ### Claim C8 -/

/-- The reconciliation property claimed of the comparator: when axis
lengths differ on either dimension, both reconciled axes span from the
minimum to the maximum over both original axes with bin count the larger
of the two original lengths, and both grids are 2D-interpolated onto
them; when both lengths match, nothing is reconciled regardless of the
axes' values. -/
def ReconcileSpec (g1 g2 : Mat) (a1 a2 : List ℚ × List ℚ) : Prop :=
  ((¬ a1.1.length = a2.1.length ∨ ¬ a1.2.length = a2.2.length) →
    (compare_basic_raw g1 a1 g2 a2).resAxes.1.length = max a1.1.length a2.1.length
    ∧ (compare_basic_raw g1 a1 g2 a2).resAxes.1.getD 0 0 = min (listMin a1.1) (listMin a2.1)
    ∧ (compare_basic_raw g1 a1 g2 a2).resAxes.1.getD (max a1.1.length a2.1.length - 1) 0
        = max (listMax a1.1) (listMax a2.1)
    ∧ (compare_basic_raw g1 a1 g2 a2).resAxes.2.length = max a1.2.length a2.2.length
    ∧ (compare_basic_raw g1 a1 g2 a2).resAxes.2.getD 0 0 = min (listMin a1.2) (listMin a2.2)
    ∧ (compare_basic_raw g1 a1 g2 a2).resAxes.2.getD (max a1.2.length a2.2.length - 1) 0
        = max (listMax a1.2) (listMax a2.2)
    ∧ (compare_basic_raw g1 a1 g2 a2).normData1
        = interp2d_eval a1.2 a1.1 g1 (compare_basic_raw g1 a1 g2 a2).resAxes.2
            (compare_basic_raw g1 a1 g2 a2).resAxes.1
    ∧ (compare_basic_raw g1 a1 g2 a2).normData2
        = interp2d_eval a2.2 a2.1 g2 (compare_basic_raw g1 a1 g2 a2).resAxes.2
            (compare_basic_raw g1 a1 g2 a2).resAxes.1)
  ∧ ((a1.1.length = a2.1.length ∧ a1.2.length = a2.2.length) →
    (compare_basic_raw g1 a1 g2 a2).normData1 = g1
      ∧ (compare_basic_raw g1 a1 g2 a2).normData2 = g2
      ∧ (compare_basic_raw g1 a1 g2 a2).resAxes = a1)

/-- Claim C8: the comparator reconciles axes exactly when the lengths
differ on some dimension — each reconciled axis spanning
`[min(both axes), max(both axes)]` with bin count the larger of the two
lengths, both grids resampled onto the reconciled grid by bivariate
interpolation — and never reconciles equal-length axes.  (Axes with at
least two bins, per the spec's exclusion of degenerate single-point
axes.) -/
theorem claim8_reconcile (g1 g2 : Mat) (a1 a2 : List ℚ × List ℚ)
    (h11 : 2 ≤ a1.1.length) (h21 : 2 ≤ a2.1.length)
    (h12 : 2 ≤ a1.2.length) (h22 : 2 ≤ a2.2.length) :
    ReconcileSpec g1 g2 a1 a2 := by
  constructor
  · intro h
    simp only [compare_basic_raw, if_pos h]
    refine ⟨?_, ?_, ?_, ?_, ?_, ?_, by trivial, by trivial⟩
    · simp only [interpolate_axes]
      exact linspace_length _ _ _
    · simp only [interpolate_axes]
      exact linspace_head _ _ _ (by omega)
    · simp only [interpolate_axes]
      exact linspace_last _ _ _ (by omega)
    · simp only [interpolate_axes]
      exact linspace_length _ _ _
    · simp only [interpolate_axes]
      exact linspace_head _ _ _ (by omega)
    · simp only [interpolate_axes]
      exact linspace_last _ _ _ (by omega)
  · intro h
    have hneg : ¬ (¬ a1.1.length = a2.1.length ∨ ¬ a1.2.length = a2.2.length) := by
      simp [h.1, h.2]
    simp only [compare_basic_raw, if_neg hneg]
    exact ⟨by trivial, by trivial, by trivial⟩

/-- Witness for C8 at concrete inputs (DT axes of lengths 2 and 3). -/
theorem claim8_reconcile_witness :
    2 ≤ [(0 : ℚ), 1].length
      ∧ ReconcileSpec [[(1 : ℚ), 2], [3, 4]] [[(5 : ℚ), 6], [7, 8], [9, 10]]
          ([0, 1], [10, 20]) ([0, 1, 2], [10, 20]) :=
  ⟨by decide,
    claim8_reconcile [[(1 : ℚ), 2], [3, 4]] [[(5 : ℚ), 6], [7, 8], [9, 10]]
      ([0, 1], [10, 20]) ([0, 1, 2], [10, 20])
      (by decide) (by decide) (by decide) (by decide)⟩

/-! ### Claim C10 -/

/-- Claim C10: whenever `cropping_window_values` is set, `process_raw_obj`
fails with a `TypeError` at the cropping stage — the source calls
`Raw_Processing.crop(norm_data, axes, crop_vals)` with three positional
arguments while `crop` is defined with two parameters
`(analysis_obj, crop_vals)` — so the pipeline's cropping path can never
produce a cropped grid. -/
theorem claim10_crop_call_error (f : ℕ → List ℚ → List ℚ) (raw : Mat) (dt cv : List ℚ)
    (p : Parameters) (h : p.cropping_window_values ≠ none) :
    process_raw_obj f raw dt cv p
      = Except.error "TypeError: crop() takes 2 positional arguments but 3 were given" := by
  rcases hc : p.cropping_window_values with _ | vals
  · exact absurd hc h
  · simp only [process_raw_obj, hc]

/-- Witness for C10 at a concrete input. -/
theorem claim10_crop_call_error_witness :
    (Parameters.mk (some 3) 2 (some [1, 2, 3, 4]) 5).cropping_window_values ≠ none
      ∧ process_raw_obj (fun _ l => l) [[(1 : ℚ)]] [0] [0]
          (Parameters.mk (some 3) 2 (some [1, 2, 3, 4]) 5)
        = Except.error "TypeError: crop() takes 2 positional arguments but 3 were given" :=
  ⟨by decide,
    claim10_crop_call_error (fun _ l => l) [[(1 : ℚ)]] [0] [0]
      (Parameters.mk (some 3) 2 (some [1, 2, 3, 4]) 5) (by decide)⟩
